import Mathlib

/-
Shallow embedding of the commune data pipeline (water quality, rents,
geometry, population) found in final.py, eau.py, eau_merge.py, am.py,
population_merge.py and mysql_database.py.

Conventions:
- a pandas cell that may hold NaN is an Option;
- numeric cells are rationals;
- a DataFrame is a list of rows (typed records or pairs);
- pandas merge(how=left) is modelled row-per-match with a NaN-filled
  row when no right row matches (pandas_left_merge below);
- groupby(key).mean() is modelled by listing the distinct keys in first
  occurrence order and averaging each group (pandas means skip NaN and
  return NaN on an all-NaN group).
-/

/-- Python str.zfill on an explicit character list: left-fill with the
digit zero up to the requested width, inserting the padding after a
leading sign character, and returning the input unchanged when it is
already at least width characters long. -/
def zfill_chars (width : Nat) (l : List Char) : List Char :=
  if width ≤ l.length then l
  else
    match l with
    | [] => List.replicate width '0'
    | c :: rest =>
      if c = '-' ∨ c = '+' then c :: (List.replicate (width - l.length) '0' ++ rest)
      else List.replicate (width - l.length) '0' ++ l

/-- Python s.zfill(width), the Key Normalizer applied by every
astype(str).str.zfill(5) call in the repository. -/
def zfill (width : Nat) (s : String) : String :=
  String.mk (zfill_chars width s.data)

/-- Raw water sampling row as read from the CSV files: the commune key
column inseecommune plus the two categorical conformity columns, each
possibly missing. -/
structure WaterRecord where
  inseecommune : String
  plvconformitebacterio : Option String
  plvconformitechimique : Option String
deriving DecidableEq

/-- Water row after clean_water_data: normalized key and the two binary
conformity indicators. The same shape also serves for the rows of the
per-commune aggregate water_agg since groupby keeps these columns. -/
structure CleanWaterRow where
  inseecommune : String
  bacterio_conformity : ℚ
  chemical_conformity : ℚ
deriving DecidableEq

/-- Row of the merged table built by merge_data in final.py (geometry
omitted: only the key and the indicator columns matter here). -/
structure MergedRow where
  codgeo : String
  bacterio_conformity : Option ℚ
  chemical_conformity : Option ℚ
  mean_loypredm2 : Option ℚ
deriving DecidableEq

/-- Row of the merged_data SQL table of mysql_database.py. -/
structure MergedSqlRow where
  insee_commune : String
  bacterio_conformity : ℚ
  chemical_conformity : ℚ
  mean_loypredm2 : Option ℚ
deriving DecidableEq

/-- Conformity Encoder: the lambda x: 1 if x == "C" else 0 applied by
final.py, eau_merge.py, population_merge.py and mysql_database.py to the
raw conformity cells (a missing cell is not equal to "C", hence 0). -/
def encode_conformity (x : Option String) : ℚ :=
  if x = some "C" then 1 else 0

/-- clean_water_data of final.py (identical in eau_merge.py,
population_merge.py and in load_water_data of mysql_database.py):
zero-pad the key, binarize the two conformity columns. -/
def clean_water_data (rows : List WaterRecord) : List CleanWaterRow :=
  rows.map fun r =>
    { inseecommune := zfill 5 r.inseecommune
    , bacterio_conformity := encode_conformity r.plvconformitebacterio
    , chemical_conformity := encode_conformity r.plvconformitechimique }

/-- load_geo_data: the geometry codgeo column after astype(str).str.zfill(5). -/
def load_geo_data (codes : List String) : List String :=
  codes.map (zfill 5)

/-- Arithmetic mean of a list of rationals (pandas mean of a group with
no missing cells). -/
def mean_list (xs : List ℚ) : ℚ :=
  xs.sum / (xs.length : ℚ)

/-- Pandas mean with skipna semantics: average of the present values,
NaN (none) when every value of the group is missing. -/
def mean_skipna (xs : List (Option ℚ)) : Option ℚ :=
  let present := xs.filterMap id
  if present.isEmpty then none else some (present.sum / (present.length : ℚ))

/-- Aggregation water_data.groupby("inseecommune").agg(mean of the two
conformity columns) from merge_data: one row per distinct key, keys in
first occurrence order, each indicator averaged over its group. -/
def water_agg (rows : List CleanWaterRow) : List CleanWaterRow :=
  (rows.map fun r => r.inseecommune).dedup.map fun k =>
    { inseecommune := k
    , bacterio_conformity :=
        mean_list ((rows.filter fun r => r.inseecommune = k).map fun r => r.bacterio_conformity)
    , chemical_conformity :=
        mean_list ((rows.filter fun r => r.inseecommune = k).map fun r => r.chemical_conformity) }

/-- Pandas groupby(key)[column].mean() over (key, value) pairs, the
Commune Aggregator engine shared by the rent loaders and eau.py. -/
def groupby_mean (records : List (String × Option ℚ)) : List (String × Option ℚ) :=
  (records.map Prod.fst).dedup.map fun k =>
    (k, mean_skipna ((records.filter fun r => r.1 = k).map Prod.snd))

/-- load_rent_data of final.py: concatenate the rent files (the input is
the concatenation) then groupby("INSEE_C")["loypredm2"].mean(), renamed
mean_loypredm2. The raw INSEE_C is used as grouping key: final.py applies
no zfill to it. -/
def load_rent_data (rent : List (String × Option ℚ)) : List (String × Option ℚ) :=
  groupby_mean rent

/-- Pandas left merge: every left row is kept; a left row is repeated
once per matching right row, and completed with a single NaN-filled row
when nothing matches. -/
def pandas_left_merge {α β γ : Type} (left : List γ) (right : List α)
    (lkey : γ → String) (rkey : α → String)
    (noMatch : γ → β) (withMatch : γ → α → β) : List β :=
  left.flatMap fun g =>
    match right.filter (fun a => rkey a = lkey g) with
    | [] => [noMatch g]
    | ms => ms.map (withMatch g)

/-- Geometry Join, water first then rent, exactly as merge_data of
final.py chains its two merges (left_on codgeo, right_on inseecommune,
then left_on codgeo, right_on INSEE_C, both how=left). -/
def join_water_rent (geo : List String) (wa : List CleanWaterRow)
    (ra : List (String × Option ℚ)) : List MergedRow :=
  pandas_left_merge
    (pandas_left_merge geo wa id (fun a => a.inseecommune)
      (fun g => (g, (none : Option ℚ), (none : Option ℚ)))
      (fun g a => (g, some a.bacterio_conformity, some a.chemical_conformity)))
    ra (fun t => t.1) Prod.fst
    (fun t => { codgeo := t.1, bacterio_conformity := t.2.1
              , chemical_conformity := t.2.2, mean_loypredm2 := none })
    (fun t r => { codgeo := t.1, bacterio_conformity := t.2.1
                , chemical_conformity := t.2.2, mean_loypredm2 := r.2 })

/-- Geometry Join with the two indicator tables taken in the opposite
order: rent first, water second. -/
def join_rent_water (geo : List String) (ra : List (String × Option ℚ))
    (wa : List CleanWaterRow) : List MergedRow :=
  pandas_left_merge
    (pandas_left_merge geo ra id Prod.fst
      (fun g => (g, (none : Option ℚ)))
      (fun g r => (g, r.2)))
    wa (fun t => t.1) (fun a => a.inseecommune)
    (fun t => { codgeo := t.1, bacterio_conformity := none
              , chemical_conformity := none, mean_loypredm2 := t.2 })
    (fun t a => { codgeo := t.1, bacterio_conformity := some a.bacterio_conformity
                , chemical_conformity := some a.chemical_conformity, mean_loypredm2 := t.2 })

/-- merge_data of final.py: aggregate the cleaned water rows, left-join
onto the geometry, then left-join the rent aggregate. -/
def merge_data (geo : List String) (water : List WaterRecord)
    (rent : List (String × Option ℚ)) : List MergedRow :=
  join_water_rent geo (water_agg (clean_water_data water)) (load_rent_data rent)

/-- Whole in-memory pipeline of final.py on already-parsed inputs:
load_geo_data, clean_water_data, load_rent_data, merge_data. -/
def run_pipeline (geoRaw : List String) (water : List WaterRecord)
    (rent : List (String × Option ℚ)) : List MergedRow :=
  merge_data (load_geo_data geoRaw) water rent

/-- load_rent_data of mysql_database.py: unlike final.py it zero-pads
INSEE_C before the groupby mean. -/
def mysql_load_rent (rent : List (String × Option ℚ)) : List (String × Option ℚ) :=
  groupby_mean (rent.map fun r => (zfill 5 r.1, r.2))

/-- preprocess_and_merge_data of mysql_database.py: INSERT one row per
distinct inseecommune of water_data with AVG of the two (never NULL)
conformity columns, then UPDATE ... JOIN rent_data on the commune code,
setting mean_loypredm2 where a rent row matches (rent_data, being a
groupby result, has at most one row per key, so find? models the join). -/
def preprocess_and_merge_data (water : List CleanWaterRow)
    (rentTable : List (String × Option ℚ)) : List MergedSqlRow :=
  (water.map fun w => w.inseecommune).dedup.map fun k =>
    { insee_commune := k
    , bacterio_conformity :=
        mean_list ((water.filter fun w => w.inseecommune = k).map fun w => w.bacterio_conformity)
    , chemical_conformity :=
        mean_list ((water.filter fun w => w.inseecommune = k).map fun w => w.chemical_conformity)
    , mean_loypredm2 :=
        match rentTable.find? (fun r => r.1 = k) with
        | some r => r.2
        | none => none }

/-- Durable Store variant end to end: load_water_data (same cleaning as
final.py), load_rent_data with zfill, then preprocess_and_merge_data. -/
def run_mysql_pipeline (water : List WaterRecord)
    (rent : List (String × Option ℚ)) : List MergedSqlRow :=
  preprocess_and_merge_data (clean_water_data water) (mysql_load_rent rent)

/-- Value of a digit string read in base ten. -/
def digits_to_nat (l : List Char) : Nat :=
  l.foldl (fun acc c => 10 * acc + (c.toNat - 48)) 0

/-- Best-effort numeric parse modelling pd.to_numeric on a text cell:
an optional sign, digits, an optional fractional part; anything else
(such as the conformity code "C") coerces to NaN, i.e. none. -/
def parse_numeric (s : String) : Option ℚ :=
  let body : List Char :=
    match s.data with
    | '-' :: r => r
    | '+' :: r => r
    | r => r
  let sgn : ℚ :=
    match s.data with
    | '-' :: _ => -1
    | _ => 1
  match body.span Char.isDigit with
  | (ints, []) =>
      if ints.isEmpty then none
      else some (sgn * (digits_to_nat ints : ℚ))
  | (ints, '.' :: frac) =>
      if frac.all Char.isDigit && !(ints.isEmpty && frac.isEmpty) then
        some (sgn * ((digits_to_nat ints : ℚ) + (digits_to_nat frac : ℚ) / ((10 : ℚ) ^ frac.length)))
      else none
  | _ => none

/-- pd.to_numeric(column, errors="coerce") on one cell: a missing cell
stays missing, a non-numeric string becomes missing. -/
def to_numeric (x : Option String) : Option ℚ :=
  x.bind parse_numeric

/-- Water row after clean_data of eau.py: key zero-padded, conformity
columns coerced to numbers (not binarized). -/
structure EauCleanRow where
  inseecommune : String
  plvconformitebacterio : Option ℚ
  plvconformitechimique : Option ℚ
deriving DecidableEq

/-- clean_data of eau.py: zfill the key and run pd.to_numeric with
errors="coerce" on both conformity columns. -/
def clean_data_eau (rows : List WaterRecord) : List EauCleanRow :=
  rows.map fun r =>
    { inseecommune := zfill 5 r.inseecommune
    , plvconformitebacterio := to_numeric r.plvconformitebacterio
    , plvconformitechimique := to_numeric r.plvconformitechimique }

/-- DataFrame.dropna() on the selected columns: keep exactly the rows
whose every selected cell is present, stripping the Option wrapper. -/
def dropna (rows : List (List (Option ℚ))) : List (List ℚ) :=
  rows.filterMap fun r => if r.all Option.isSome then some (r.filterMap id) else none

/-- Column i of a complete-case table (0 outside the row, never hit on
rectangular input). -/
def col_at (m : List (List ℚ)) (i : ℕ) : List ℚ :=
  m.map fun r => r.getD i 0

/-- Deviations from the column mean. -/
def centered (xs : List ℚ) : List ℚ :=
  xs.map fun x => x - mean_list xs

/-- Sum of products of centered values: covariance numerator shared by
the numerator and denominator of the Pearson coefficient (the 1/(n-1)
factors cancel). -/
def scov (xs ys : List ℚ) : ℚ :=
  (List.zipWith (fun a b => a * b) (centered xs) (centered ys)).sum

/-- Pearson correlation coefficient of two columns, as computed by
DataFrame.corr(). -/
noncomputable def pearson (xs ys : List ℚ) : ℝ :=
  ((scov xs ys : ℚ) : ℝ) /
    (Real.sqrt ((scov xs xs : ℚ) : ℝ) * Real.sqrt ((scov ys ys : ℚ) : ℝ))

/-- analyze_correlation / plot_correlation_heatmap core: select the
indicator columns (the table argument is already the selection), dropna,
then the pairwise Pearson matrix. -/
noncomputable def analyze_correlation (table : List (List (Option ℚ))) (i j : ℕ) : ℝ :=
  pearson (col_at (dropna table) i) (col_at (dropna table) j)

/-- Row that merge_data produces for one geometry key when both
indicator tables have unique keys: each indicator column is the
single-match lookup, missing when the key is absent. -/
def final_row (water : List WaterRecord) (rent : List (String × Option ℚ))
    (g : String) : MergedRow :=
  { codgeo := g
  , bacterio_conformity :=
      match (water_agg (clean_water_data water)).find? (fun a => a.inseecommune = g) with
      | none => none
      | some a => some a.bacterio_conformity
  , chemical_conformity :=
      match (water_agg (clean_water_data water)).find? (fun a => a.inseecommune = g) with
      | none => none
      | some a => some a.chemical_conformity
  , mean_loypredm2 :=
      match (load_rent_data rent).find? (fun r => r.1 = g) with
      | none => none
      | some r => r.2 }

/-! Helper lemmas about keyed lookups, used to relate the row-per-match
model of the pandas merges to single-row lookups when the right table
has pairwise distinct keys (which every groupby output has). -/

lemma filter_key_eq_nil {α : Type} (key : α → String) (l : List α) (g : String)
    (h : g ∉ l.map key) : l.filter (fun a => key a = g) = [] := by
  rw [List.filter_eq_nil_iff]
  intro a ha
  simp only [decide_eq_true_eq]
  intro hkey
  exact h (List.mem_map.mpr ⟨a, ha, hkey⟩)

lemma filter_key_eq_find {α : Type} (key : α → String) (g : String) :
    ∀ l : List α, (l.map key).Nodup →
      l.filter (fun a => key a = g) = (l.find? (fun a => key a = g)).toList := by
  intro l
  induction l with
  | nil => intro _; rfl
  | cons a t ih =>
    intro hnd
    rw [List.map_cons, List.nodup_cons] at hnd
    by_cases h : key a = g
    · have ht : t.filter (fun x => key x = g) = [] :=
        filter_key_eq_nil key t g (by rw [← h]; exact hnd.1)
      simp [List.filter_cons, List.find?_cons, h, ht]
    · simp [List.filter_cons, List.find?_cons, h, ih hnd.2]

lemma flatMap_singleton_eq_map {β γ : Type} (t : List γ) (f : γ → β) :
    (t.flatMap fun x => [f x]) = t.map f := by
  induction t with
  | nil => rfl
  | cons a s ih => simp [List.flatMap_cons, ih]

lemma pandas_left_merge_eq_map {α β γ : Type} {left : List γ} {right : List α}
    {lkey : γ → String} {rkey : α → String} {noMatch : γ → β} {withMatch : γ → α → β}
    (hnd : (right.map rkey).Nodup) :
    pandas_left_merge left right lkey rkey noMatch withMatch
      = left.map fun g =>
          match right.find? (fun a => rkey a = lkey g) with
          | none => noMatch g
          | some a => withMatch g a := by
  have hb : ∀ g : γ,
      (match right.filter (fun a => rkey a = lkey g) with
       | [] => [noMatch g]
       | ms => ms.map (withMatch g))
      = [match right.find? (fun a => rkey a = lkey g) with
         | none => noMatch g
         | some a => withMatch g a] := by
    intro g
    rw [filter_key_eq_find rkey (lkey g) right hnd]
    cases hfind : right.find? (fun a => rkey a = lkey g) <;> rfl
  unfold pandas_left_merge
  rw [funext hb]
  exact flatMap_singleton_eq_map left _

lemma find?_eq_self_of_mem : ∀ (l : List String) (k : String), k ∈ l →
    l.find? (fun x => x = k) = some k := by
  intro l
  induction l with
  | nil => intro k hk; cases hk
  | cons a t ih =>
    intro k hk
    by_cases h : a = k
    · simp [List.find?_cons, h]
    · rcases List.mem_cons.mp hk with h1 | h2
      · exact absurd h1.symm h
      · simp [List.find?_cons, h, ih k h2]

lemma find?_on_keyed_map {β : Type} (keys : List String) (f : String → β) (kf : β → String)
    (hkf : ∀ x, kf (f x) = x) (k : String) (hk : k ∈ keys) :
    (keys.map f).find? (fun b => kf b = k) = some (f k) := by
  rw [List.find?_map]
  have hpred : ((fun b => decide (kf b = k)) ∘ f) = fun x => decide (x = k) := by
    funext x
    simp [hkf]
  rw [hpred, find?_eq_self_of_mem keys k hk]
  rfl

lemma water_agg_keys (rows : List CleanWaterRow) :
    (water_agg rows).map (fun r => r.inseecommune)
      = (rows.map fun r => r.inseecommune).dedup := by
  simp [water_agg, List.map_map, Function.comp_def]

lemma water_agg_nodup (rows : List CleanWaterRow) :
    ((water_agg rows).map fun r => r.inseecommune).Nodup := by
  rw [water_agg_keys]
  exact List.nodup_dedup _

lemma groupby_mean_keys (records : List (String × Option ℚ)) :
    (groupby_mean records).map Prod.fst = (records.map Prod.fst).dedup := by
  simp [groupby_mean, List.map_map, Function.comp_def]

lemma groupby_mean_nodup (records : List (String × Option ℚ)) :
    ((groupby_mean records).map Prod.fst).Nodup := by
  rw [groupby_mean_keys]
  exact List.nodup_dedup _

lemma load_rent_data_nodup (rent : List (String × Option ℚ)) :
    ((load_rent_data rent).map Prod.fst).Nodup :=
  groupby_mean_nodup rent

lemma water_agg_find (rows : List CleanWaterRow) (k : String)
    (hk : k ∈ rows.map fun r => r.inseecommune) :
    (water_agg rows).find? (fun a => a.inseecommune = k)
      = some
        { inseecommune := k
        , bacterio_conformity :=
            mean_list ((rows.filter fun r => r.inseecommune = k).map fun r => r.bacterio_conformity)
        , chemical_conformity :=
            mean_list ((rows.filter fun r => r.inseecommune = k).map fun r => r.chemical_conformity) } := by
  unfold water_agg
  exact find?_on_keyed_map _ _ _ (fun x => rfl) k (List.mem_dedup.mpr hk)

lemma groupby_mean_find (records : List (String × Option ℚ)) (k : String)
    (hk : k ∈ records.map Prod.fst) :
    (groupby_mean records).find? (fun r => r.1 = k)
      = some (k, mean_skipna ((records.filter fun r => r.1 = k).map Prod.snd)) := by
  unfold groupby_mean
  exact find?_on_keyed_map _ _ _ (fun x => rfl) k (List.mem_dedup.mpr hk)

lemma preprocess_find (water : List CleanWaterRow) (rentTable : List (String × Option ℚ))
    (k : String) (hk : k ∈ water.map fun w => w.inseecommune) :
    (preprocess_and_merge_data water rentTable).find? (fun m => m.insee_commune = k)
      = some
        { insee_commune := k
        , bacterio_conformity :=
            mean_list ((water.filter fun w => w.inseecommune = k).map fun w => w.bacterio_conformity)
        , chemical_conformity :=
            mean_list ((water.filter fun w => w.inseecommune = k).map fun w => w.chemical_conformity)
        , mean_loypredm2 :=
            match rentTable.find? (fun r => r.1 = k) with
            | some r => r.2
            | none => none } := by
  unfold preprocess_and_merge_data
  exact find?_on_keyed_map _ _ _ (fun x => rfl) k (List.mem_dedup.mpr hk)

lemma merge_data_eq_map (geo : List String) (water : List WaterRecord)
    (rent : List (String × Option ℚ)) :
    merge_data geo water rent = geo.map (final_row water rent) := by
  unfold merge_data join_water_rent
  rw [pandas_left_merge_eq_map (water_agg_nodup (clean_water_data water)),
    pandas_left_merge_eq_map (load_rent_data_nodup rent), List.map_map]
  apply List.map_congr_left
  intro g _
  cases hw : (water_agg (clean_water_data water)).find? (fun a => a.inseecommune = g) <;>
    cases hr : (load_rent_data rent).find? (fun r => r.1 = g) <;>
      simp [final_row, hw, hr, Function.comp]

lemma zfill_chars_of_ge (w : Nat) (l : List Char) (h : w ≤ l.length) :
    zfill_chars w l = l := by
  unfold zfill_chars
  rw [if_pos h]

lemma zfill_chars_length (w : Nat) (l : List Char) :
    (zfill_chars w l).length = max w l.length := by
  by_cases h : w ≤ l.length
  · rw [zfill_chars_of_ge w l h]
    omega
  · cases l with
    | nil =>
      simp only [zfill_chars]
      split_ifs <;> simp
    | cons c rest =>
      have h1 : ¬ w ≤ rest.length + 1 := by simpa using h
      by_cases hs : c = '-' ∨ c = '+' <;>
        simp [zfill_chars, h1, hs] <;> omega

/-- C8: the Key Normalizer turns its input into its string form and
left-pads it with the digit zero up to width 5 (normalize 1 = "00001",
normalize "750" = "00750", normalize "12345" = "12345"); a string of
length at least 5 is returned unchanged (no truncation, so
normalize "123456" = "123456"), and normalizing twice equals normalizing
once (idempotence). -/
theorem c8_key_normalizer_padding :
    zfill 5 (toString (1 : Nat)) = "00001" ∧
    zfill 5 "750" = "00750" ∧
    zfill 5 "12345" = "12345" ∧
    zfill 5 "123456" = "123456" ∧
    (∀ s : String, 5 ≤ s.length → zfill 5 s = s) ∧
    (∀ s : String, zfill 5 (zfill 5 s) = zfill 5 s) := by
  refine ⟨by decide, by decide, by decide, by decide, ?_, ?_⟩
  · intro s hs
    have hs2 : 5 ≤ s.data.length := hs
    unfold zfill
    rw [zfill_chars_of_ge 5 s.data hs2]
  · intro s
    have h5 : 5 ≤ (zfill_chars 5 s.data).length := by
      rw [zfill_chars_length]
      exact Nat.le_max_left _ _
    unfold zfill
    congr 1
    exact zfill_chars_of_ge 5 _ h5

/-- C8 witness: the no-truncation clause applied at the concrete
six-character code. -/
theorem c8_key_normalizer_padding_witness :
    5 ≤ ("123456" : String).length ∧ zfill 5 "123456" = "123456" :=
  ⟨by decide, c8_key_normalizer_padding.2.2.2.2.1 "123456" (by decide)⟩

/-- C2: on the concrete end-to-end scenario (geometry 00001, 00002 and
00003; water records for raw keys 1 with code C and 2 with code N; two
rent records for 00001 with 10.0 and 12.0) the final.py pipeline yields
conformity rate 1 and mean rent 11 for 00001, conformity rate 0 and
missing rent for 00002, and every indicator missing for 00003. -/
theorem c2_end_to_end_scenario :
    run_pipeline ["00001", "00002", "00003"]
      [⟨"1", some "C", none⟩, ⟨"2", some "N", none⟩]
      [("00001", some 10), ("00001", some 12)]
    = [{ codgeo := "00001", bacterio_conformity := some 1
       , chemical_conformity := some 0, mean_loypredm2 := some 11 },
       { codgeo := "00002", bacterio_conformity := some 0
       , chemical_conformity := some 0, mean_loypredm2 := none },
       { codgeo := "00003", bacterio_conformity := none
       , chemical_conformity := none, mean_loypredm2 := none }] := by
  simp +decide [run_pipeline, merge_data, join_water_rent, pandas_left_merge,
    load_geo_data, load_rent_data, groupby_mean, water_agg, clean_water_data,
    encode_conformity, mean_list, mean_skipna, zfill, zfill_chars,
    List.dedup_cons_of_mem, List.dedup_cons_of_not_mem, List.filter]
  norm_num

/-- C1 is violated by the code: final.py (like eau_merge.py and
population_merge.py) groups and merges the rent table on the raw INSEE_C
column without normalizing it, so the rent record keyed 1 matches no
geometry row even though its normalized key 00001 is present, and the
grouping key of load_rent_data stays the raw string 1. -/
theorem c1_rent_key_not_normalized :
    run_pipeline ["00001"] [] [("1", some (10 : ℚ))]
      = [{ codgeo := "00001", bacterio_conformity := none
         , chemical_conformity := none, mean_loypredm2 := none }] ∧
    (load_rent_data [("1", some (10 : ℚ))]).map Prod.fst = ["1"] := by
  constructor
  · decide
  · decide

/-- C5 is violated by the eau.py variant: clean_data runs pd.to_numeric
with errors coerce on the conformity columns, so the literal code C is
coerced to missing rather than encoded as 1. -/
theorem c5_eau_variant_maps_conformity_to_missing :
    clean_data_eau
      [{ inseecommune := "1", plvconformitebacterio := some "C"
       , plvconformitechimique := some "C" }]
      = [{ inseecommune := "00001", plvconformitebacterio := none
         , plvconformitechimique := none }] ∧
    (none : Option ℚ) ≠ some 1 := by
  constructor
  · decide
  · decide

/-- C5 (amended): the lambda encoder used by final.py, eau_merge.py,
population_merge.py and mysql_database.py maps exactly the literal C to
1 and every other input, including N, the empty string and a missing
cell, to 0; the eau.py variant instead coerces the raw codes to numbers,
sending C to missing. -/
theorem c5_conformity_encoder (x : Option String) :
    encode_conformity (some "C") = 1 ∧
    (x ≠ some "C" → encode_conformity x = 0) ∧
    encode_conformity none = 0 ∧
    encode_conformity (some "") = 0 ∧
    encode_conformity (some "N") = 0 := by
  refine ⟨by simp [encode_conformity], ?_, by simp [encode_conformity],
    by simp +decide [encode_conformity], by simp +decide [encode_conformity]⟩
  intro hx
  simp [encode_conformity, hx]

/-- C5 witness: the catch-all clause of the encoder applied at the
concrete non-C code X. -/
theorem c5_conformity_encoder_witness :
    (some "X" ≠ (some "C" : Option String)) ∧ encode_conformity (some "X") = 0 :=
  ⟨by decide, (c5_conformity_encoder (some "X")).2.1 (by decide)⟩

/-- C3: the Geometry Join keeps exactly one output row per geometry row
whatever the key overlap: the merged table has the geometry's length,
its i-th row carries the i-th geometry key, and a geometry key absent
from an indicator table leaves that indicator's columns explicitly
missing in the corresponding row. -/
theorem c3_geometry_join_row_invariant (geo : List String) (water : List WaterRecord)
    (rent : List (String × Option ℚ)) :
    (merge_data geo water rent).length = geo.length ∧
    (∀ i : ℕ, ((merge_data geo water rent)[i]?).map (fun r => r.codgeo) = geo[i]?) ∧
    (∀ (i : ℕ) (row : MergedRow), (merge_data geo water rent)[i]? = some row →
      (row.codgeo ∉ (water_agg (clean_water_data water)).map (fun a => a.inseecommune) →
        row.bacterio_conformity = none ∧ row.chemical_conformity = none) ∧
      (row.codgeo ∉ (load_rent_data rent).map Prod.fst → row.mean_loypredm2 = none)) := by
  refine ⟨?_, ?_, ?_⟩
  · rw [merge_data_eq_map]
    exact List.length_map _ _
  · intro i
    rw [merge_data_eq_map, List.getElem?_map]
    cases geo[i]? <;> rfl
  · intro i row hrow
    rw [merge_data_eq_map, List.getElem?_map] at hrow
    rcases Option.map_eq_some'.mp hrow with ⟨g, hg, hfr⟩
    have hc : row.codgeo = g := by rw [← hfr]; rfl
    constructor
    · intro hnot
      rw [hc] at hnot
      have hfind : (water_agg (clean_water_data water)).find?
          (fun a => a.inseecommune = g) = none := by
        rw [List.find?_eq_none]
        intro a ha
        simp only [decide_eq_true_eq]
        intro heq
        exact hnot (heq ▸ List.mem_map_of_mem _ ha)
      constructor <;> rw [← hfr] <;> simp [final_row, hfind]
    · intro hnot
      rw [hc] at hnot
      have hfind : (load_rent_data rent).find? (fun r => r.1 = g) = none := by
        rw [List.find?_eq_none]
        intro a ha
        simp only [decide_eq_true_eq]
        intro heq
        exact hnot (heq ▸ List.mem_map_of_mem _ ha)
      rw [← hfr]
      simp [final_row, hfind]

/-- C3 witness: the invariant applied to a two-commune geometry with no
water and no rent data at all. -/
theorem c3_geometry_join_row_invariant_witness :
    (merge_data ["00001", "00002"] [] []).length = (["00001", "00002"] : List String).length ∧
    ((merge_data ["00001", "00002"] [] [])[0]?).map (fun r => r.codgeo)
      = (["00001", "00002"] : List String)[0]? ∧
    ({ codgeo := "00001", bacterio_conformity := none
     , chemical_conformity := none, mean_loypredm2 := none } : MergedRow).mean_loypredm2
      = none :=
  ⟨(c3_geometry_join_row_invariant ["00001", "00002"] [] []).1,
   (c3_geometry_join_row_invariant ["00001", "00002"] [] []).2.1 0,
   ((c3_geometry_join_row_invariant ["00001", "00002"] [] []).2.2 0
      { codgeo := "00001", bacterio_conformity := none
      , chemical_conformity := none, mean_loypredm2 := none }
      (by decide)).2 (by decide)⟩

/-- C4: the Commune Aggregator emits at most one row per key, and the
row of a key averages the present values only: missing cells are
skipped, and a group whose values are all missing yields a missing
result, never zero. -/
theorem c4_aggregator_mean_skips_missing (records : List (String × Option ℚ)) (k : String)
    (hk : k ∈ records.map Prod.fst) :
    ((groupby_mean records).map Prod.fst).Nodup ∧
    (groupby_mean records).find? (fun r => r.1 = k)
      = some (k,
          if ((records.filter fun r => r.1 = k).map Prod.snd).filterMap id = []
          then none
          else some ((((records.filter fun r => r.1 = k).map Prod.snd).filterMap id).sum /
            (((((records.filter fun r => r.1 = k).map Prod.snd).filterMap id).length : ℚ)))) := by
  refine ⟨groupby_mean_nodup records, ?_⟩
  rw [groupby_mean_find records k hk]
  unfold mean_skipna
  simp only [List.isEmpty_iff]

/-- C4 witness: a commune whose two records are both missing aggregates
to a missing mean, not zero. -/
theorem c4_aggregator_mean_skips_missing_witness :
    ("00001" ∈ ([("00001", none), ("00001", none)] : List (String × Option ℚ)).map Prod.fst) ∧
    (groupby_mean [("00001", none), ("00001", none)]).find? (fun r => r.1 = "00001")
      = some ("00001", none) := by
  refine ⟨by decide, ?_⟩
  have h := (c4_aggregator_mean_skips_missing [("00001", none), ("00001", none)]
    "00001" (by decide)).2
  simpa using h

/-- C10: because the encoder always outputs 0 or 1, a geometry commune
matched by at least one cleaned water record gets a present (non-missing)
conformity rate in the merged table; in particular when every raw
bacteriological code of that commune is missing the rate is 0, not
missing. -/
theorem c10_matched_commune_conformity_present (geo : List String)
    (water : List WaterRecord) (rent : List (String × Option ℚ))
    (i : ℕ) (row : MergedRow)
    (hrow : (merge_data geo water rent)[i]? = some row)
    (hmem : row.codgeo ∈ (clean_water_data water).map fun w => w.inseecommune) :
    (∃ q : ℚ, row.bacterio_conformity = some q) ∧
    ((∀ w ∈ water, zfill 5 w.inseecommune = row.codgeo → w.plvconformitebacterio = none) →
      row.bacterio_conformity = some 0) := by
  rw [merge_data_eq_map, List.getElem?_map] at hrow
  rcases Option.map_eq_some'.mp hrow with ⟨g, hg, hfr⟩
  have hc : row.codgeo = g := by rw [← hfr]; rfl
  rw [hc] at hmem
  have hfind := water_agg_find (clean_water_data water) g hmem
  constructor
  · refine ⟨mean_list (((clean_water_data water).filter fun r => r.inseecommune = g).map
      fun r => r.bacterio_conformity), ?_⟩
    rw [← hfr]
    simp [final_row, hfind]
  · intro hall
    have hzero : ∀ x ∈ ((clean_water_data water).filter fun r => r.inseecommune = g).map
        (fun r => r.bacterio_conformity), x = 0 := by
      intro x hx
      rcases List.mem_map.mp hx with ⟨c, hc1, hc2⟩
      have hc3 : c ∈ clean_water_data water := List.mem_of_mem_filter hc1
      have hc4 : c.inseecommune = g := by
        have hdec := List.of_mem_filter hc1
        simpa using hdec
      unfold clean_water_data at hc3
      rcases List.mem_map.mp hc3 with ⟨w, hw1, hw2⟩
      have hkey : zfill 5 w.inseecommune = g := by
        rw [← hw2] at hc4
        simpa using hc4
      have hnone : w.plvconformitebacterio = none := hall w hw1 (by rw [hc]; exact hkey)
      have hcb : c.bacterio_conformity = 0 := by
        rw [← hw2]
        simp [encode_conformity, hnone]
      rw [← hc2]
      exact hcb
    have hsum : (((clean_water_data water).filter fun r => r.inseecommune = g).map
        fun r => r.bacterio_conformity).sum = 0 := List.sum_eq_zero hzero
    have hmean : mean_list (((clean_water_data water).filter fun r => r.inseecommune = g).map
        fun r => r.bacterio_conformity) = 0 := by
      unfold mean_list
      rw [hsum]
      exact zero_div _
    rw [← hfr]
    simp [final_row, hfind, hmean]

/-- C10 witness: a single water record whose key normalizes to the
geometry commune and whose raw code is missing yields the conformity
rate 0 rather than a missing cell. -/
theorem c10_matched_commune_conformity_present_witness :
    ((merge_data ["00001"] [⟨"1", none, none⟩] [])[0]?
      = some { codgeo := "00001", bacterio_conformity := some 0
             , chemical_conformity := some 0, mean_loypredm2 := none }) ∧
    ({ codgeo := "00001", bacterio_conformity := some 0
     , chemical_conformity := some 0, mean_loypredm2 := none } : MergedRow).bacterio_conformity
      = some 0 := by
  have hrow : (merge_data ["00001"] [⟨"1", none, none⟩] [])[0]?
      = some { codgeo := "00001", bacterio_conformity := some 0
             , chemical_conformity := some 0, mean_loypredm2 := none } := by
    simp +decide [merge_data, join_water_rent, pandas_left_merge,
      load_rent_data, groupby_mean, water_agg, clean_water_data,
      encode_conformity, mean_list, mean_skipna, zfill, zfill_chars,
      List.dedup_cons_of_mem, List.dedup_cons_of_not_mem, List.filter]
  refine ⟨hrow, ?_⟩
  exact (c10_matched_commune_conformity_present ["00001"] [⟨"1", none, none⟩] [] 0 _
    hrow (by decide)).2 (by decide)

lemma mysql_rent_eq (rent : List (String × Option ℚ))
    (hr : ∀ r ∈ rent, zfill 5 r.1 = r.1) :
    mysql_load_rent rent = load_rent_data rent := by
  unfold mysql_load_rent load_rent_data
  congr 1
  conv_rhs => rw [← List.map_id rent]
  apply List.map_congr_left
  intro r hmem
  rw [hr r hmem]
  simp

/-- C6 is violated as stated: over the geometry 00001 and 00002, with a
water record only for 00001 and a rent record only for 00002, the
in-memory merged table has one row per geometry commune, 00002 carrying
mean rent 10, while the SQL merged_data holds only the water commune
00001 and drops the rent-only commune entirely, so the two variants do
not produce the same set of commune rows. -/
theorem c6_sql_vs_memory_counterexample :
    (run_pipeline ["00001", "00002"] [⟨"1", some "C", some "C"⟩]
        [("00002", some (10 : ℚ))]).map (fun r => (r.codgeo, r.mean_loypredm2))
      = [("00001", none), ("00002", some 10)] ∧
    (run_mysql_pipeline [⟨"1", some "C", some "C"⟩] [("00002", some (10 : ℚ))]).map
        (fun r => (r.insee_commune, r.mean_loypredm2))
      = [("00001", none)] := by
  constructor
  · simp +decide [run_pipeline, merge_data, join_water_rent, pandas_left_merge,
      load_geo_data, load_rent_data, groupby_mean, water_agg, clean_water_data,
      encode_conformity, mean_list, mean_skipna, zfill, zfill_chars,
      List.dedup_cons_of_mem, List.dedup_cons_of_not_mem, List.filter]
  · simp +decide [run_mysql_pipeline, preprocess_and_merge_data, mysql_load_rent,
      groupby_mean, clean_water_data, water_agg, encode_conformity, mean_list,
      mean_skipna, zfill, zfill_chars, List.dedup_cons_of_mem,
      List.dedup_cons_of_not_mem, List.filter, List.find?]

/-- C6 (amended): restricted to the communes that have at least one
water record, appear in the geometry, and with rent keys already
normalized, the Durable Store SQL aggregation and merge assigns the same
bacteriological rate, chemical rate and mean rent as the in-memory
aggregate-and-join; the two variants still differ on which commune rows
exist (SQL keeps exactly the water communes, the in-memory table keeps
exactly the geometry rows). -/
theorem c6_sql_agrees_on_water_communes (geoRaw : List String)
    (water : List WaterRecord) (rent : List (String × Option ℚ)) (k : String)
    (hw : k ∈ (clean_water_data water).map fun w => w.inseecommune)
    (hr : ∀ r ∈ rent, zfill 5 r.1 = r.1)
    (hg : k ∈ load_geo_data geoRaw) :
    ∃ a b,
      (run_mysql_pipeline water rent).find? (fun m => m.insee_commune = k) = some a ∧
      (run_pipeline geoRaw water rent).find? (fun m => m.codgeo = k) = some b ∧
      b.bacterio_conformity = some a.bacterio_conformity ∧
      b.chemical_conformity = some a.chemical_conformity ∧
      b.mean_loypredm2 = a.mean_loypredm2 := by
  have hsql := preprocess_find (clean_water_data water) (mysql_load_rent rent) k hw
  have hmemrow : (run_pipeline geoRaw water rent).find? (fun m => m.codgeo = k)
      = some (final_row water rent k) := by
    unfold run_pipeline
    rw [merge_data_eq_map]
    exact find?_on_keyed_map (load_geo_data geoRaw) (final_row water rent)
      (fun m => m.codgeo) (fun x => rfl) k hg
  refine ⟨_, _, hsql, hmemrow, ?_, ?_, ?_⟩
  · have hfind := water_agg_find (clean_water_data water) k hw
    simp [final_row, hfind]
  · have hfind := water_agg_find (clean_water_data water) k hw
    simp [final_row, hfind]
  · rw [mysql_rent_eq rent hr]
    cases hf : (load_rent_data rent).find? (fun r => r.1 = k) <;> simp [final_row, hf]

/-- C6 witness: the agreement applied at a concrete water commune that
is in the geometry, with a normalized rent key. -/
theorem c6_sql_agrees_on_water_communes_witness :
    ("00001" ∈ (clean_water_data [⟨"1", some "C", none⟩]).map fun w => w.inseecommune) ∧
    (∃ a b,
      (run_mysql_pipeline [⟨"1", some "C", none⟩] [("00001", some (10 : ℚ))]).find?
          (fun m => m.insee_commune = "00001") = some a ∧
      (run_pipeline ["00001"] [⟨"1", some "C", none⟩] [("00001", some (10 : ℚ))]).find?
          (fun m => m.codgeo = "00001") = some b ∧
      b.bacterio_conformity = some a.bacterio_conformity ∧
      b.chemical_conformity = some a.chemical_conformity ∧
      b.mean_loypredm2 = a.mean_loypredm2) :=
  ⟨by decide, c6_sql_agrees_on_water_communes ["00001"] [⟨"1", some "C", none⟩]
    [("00001", some (10 : ℚ))] "00001" (by decide) (by decide) (by decide)⟩

/-- C7: joining the water aggregate then the rent aggregate onto the
geometry produces, row for row, the same merged table as joining in the
opposite order, for any indicator tables with pairwise distinct keys
(the shape every groupby aggregate has) and disjoint value columns. -/
theorem c7_join_order_commutes (geo : List String) (wa : List CleanWaterRow)
    (ra : List (String × Option ℚ))
    (hwa : (wa.map fun a => a.inseecommune).Nodup)
    (hra : (ra.map Prod.fst).Nodup) :
    join_water_rent geo wa ra = join_rent_water geo ra wa := by
  unfold join_water_rent join_rent_water
  rw [pandas_left_merge_eq_map hwa, pandas_left_merge_eq_map hra,
    pandas_left_merge_eq_map hra, pandas_left_merge_eq_map hwa,
    List.map_map, List.map_map]
  apply List.map_congr_left
  intro g _
  cases hw : wa.find? (fun a => a.inseecommune = g) <;>
    cases hr : ra.find? (fun r => r.1 = g) <;>
      simp [hw, hr, Function.comp]

/-- C7 witness: commutativity applied to concrete one-row indicator
tables with distinct keys. -/
theorem c7_join_order_commutes_witness :
    (([⟨"00001", 1, 1⟩] : List CleanWaterRow).map fun a => a.inseecommune).Nodup ∧
    (([("00002", some (10 : ℚ))] : List (String × Option ℚ)).map Prod.fst).Nodup ∧
    join_water_rent ["00001", "00002"] [⟨"00001", 1, 1⟩] [("00002", some (10 : ℚ))]
      = join_rent_water ["00001", "00002"] [("00002", some (10 : ℚ))] [⟨"00001", 1, 1⟩] :=
  ⟨by decide, by decide,
   c7_join_order_commutes ["00001", "00002"] [⟨"00001", 1, 1⟩] [("00002", some (10 : ℚ))]
     (by decide) (by decide)⟩

lemma dropna_eq (rows : List (List (Option ℚ))) :
    dropna rows = (rows.filter fun r => r.all Option.isSome).map fun r => r.filterMap id := by
  unfold dropna
  induction rows with
  | nil => rfl
  | cons r t ih =>
    by_cases h : r.all Option.isSome <;>
      simp [List.filterMap_cons, List.filter_cons, h, ih, -List.all_eq_true]

lemma scov_comm (xs ys : List ℚ) : scov xs ys = scov ys xs := by
  unfold scov
  rw [List.zipWith_comm_of_comm (fun a b => a * b) (fun x y => mul_comm x y)]

/-- C9: the Correlation Analyzer drops every row with a missing value in
any selected column (complete-case analysis) and returns a Pearson
matrix that is symmetric, with entry 1 on the diagonal for every column
of positive variance over the complete cases. -/
theorem c9_correlation_matrix (table : List (List (Option ℚ))) (i j : ℕ) :
    dropna table = (table.filter fun r => r.all Option.isSome).map (fun r => r.filterMap id) ∧
    analyze_correlation table i j = analyze_correlation table j i ∧
    (0 < scov (col_at (dropna table) i) (col_at (dropna table) i) →
      analyze_correlation table i i = 1) := by
  refine ⟨dropna_eq table, ?_, ?_⟩
  · unfold analyze_correlation pearson
    rw [scov_comm (col_at (dropna table) i) (col_at (dropna table) j), mul_comm]
  · intro h
    unfold analyze_correlation pearson
    have hpos : (0 : ℝ) <
        ((scov (col_at (dropna table) i) (col_at (dropna table) i) : ℚ) : ℝ) := by
      exact_mod_cast h
    rw [Real.mul_self_sqrt hpos.le]
    exact div_self hpos.ne'

/-- C9 witness: a three-row table whose third row is incomplete; the
first column has positive variance over the two complete cases, its
diagonal entry is 1, and the off-diagonal entries coincide. -/
theorem c9_correlation_matrix_witness :
    (0 : ℚ) < scov (col_at (dropna [[some 1, some 2], [some 2, some 1], [none, some 5]]) 0)
        (col_at (dropna [[some 1, some 2], [some 2, some 1], [none, some 5]]) 0) ∧
    analyze_correlation [[some 1, some 2], [some 2, some 1], [none, some 5]] 0 0 = 1 ∧
    analyze_correlation [[some 1, some 2], [some 2, some 1], [none, some 5]] 0 1
      = analyze_correlation [[some 1, some 2], [some 2, some 1], [none, some 5]] 1 0 := by
  have hpos : (0 : ℚ) < scov
      (col_at (dropna [[some 1, some 2], [some 2, some 1], [none, some 5]]) 0)
      (col_at (dropna [[some 1, some 2], [some 2, some 1], [none, some 5]]) 0) := by
    simp +decide [scov, centered, mean_list, col_at, dropna]
    norm_num
  exact ⟨hpos,
    (c9_correlation_matrix [[some 1, some 2], [some 2, some 1], [none, some 5]] 0 0).2.2 hpos,
    (c9_correlation_matrix [[some 1, some 2], [some 2, some 1], [none, some 5]] 0 1).2.1⟩
